import Mathlib

/-!
Verification development for the `leo` operations-dashboard repository.

The definitions below are a shallow embedding of the JavaScript modules
`src/ui/static/js/ansible.js` (inventory client, variable categorizer,
cron field rendering/collection) and `src/ui/static/js/cron.js`
(cron-log fetching with sample-data fallback).  JavaScript objects are
modelled as insertion-ordered association lists, JavaScript promises as
an explicit resolved/rejected sum, and the network as an explicit
"fetch outcome" argument.
-/

namespace Leo

/-- A JavaScript value as it occurs in the inventory variable mappings:
booleans, strings, numbers, and (for demonstrating shallow overlay on
nested data) flat string-valued objects. -/
inductive JValue where
  | bool (b : Bool)
  | str (s : String)
  | num (n : Int)
  | obj (fields : List (String × String))
  deriving DecidableEq

/-- A JavaScript object used as a string-keyed mapping, modelled as an
insertion-ordered association list (keys unique in well-formed data). -/
abbrev JMap := List (String × JValue)

/-- Property lookup `m[k]` on a modelled JavaScript object. -/
def alookup {α : Type} (m : List (String × α)) (k : String) : Option α :=
  match m with
  | [] => none
  | (k', v) :: rest => if k' == k then some v else alookup rest k

/-- `orDefault a b` is JavaScript's left-biased choice: `a` if present,
else `b` (the lookup semantics of `{...d, ...c}` reads as
`orDefault (c[k]) (d[k])`). -/
def orDefault {α : Type} (a b : Option α) : Option α :=
  match a with
  | some v => some v
  | none => b

/-- The JavaScript object spread `{...d, ...c}`: `d`'s keys first (taking
`c`'s value on collision), then the keys of `c` that are new. -/
def objSpread (d c : JMap) : JMap :=
  d.map (fun p => (p.1, (alookup c p.1).getD p.2))
    ++ c.filter (fun p => (alookup d p.1).isNone)

/-- One host entry of the inventory cache: `{ vars?: ... }`
(the `vars` field may be absent, as in `hosts[customer]?.vars || {}`). -/
structure HostEntry where
  vars : Option JMap
  deriving DecidableEq

/-- The `all` group of the inventory cache: `{ vars?, hosts? }`. -/
structure AllGroup where
  vars : Option JMap
  hosts : Option (List (String × HostEntry))
  deriving DecidableEq

/-- The in-memory inventory cache `inventoryData`; the `all` field may be
absent (e.g. the initial `{}`). -/
structure Inventory where
  all : Option AllGroup
  deriving DecidableEq

/-- `getCustomerVars` from `ansible.js`:
guards `!inventoryData.all || !inventoryData.all.hosts ||
!inventoryData.all.hosts[customer]` each return `{}`; otherwise returns
`{ ...defaultVars, ...customerVars }` with
`customerVars = hosts[customer]?.vars || {}` and
`defaultVars = all.vars || {}`. -/
def getCustomerVars (inv : Inventory) (customer : String) : JMap :=
  match inv.all with
  | none => []
  | some g =>
    match g.hosts with
    | none => []
    | some hs =>
      match alookup hs customer with
      | none => []
      | some entry => objSpread (g.vars.getD []) (entry.vars.getD [])

theorem alookup_append {α : Type} (xs ys : List (String × α)) (k : String) :
    alookup (xs ++ ys) k = orDefault (alookup xs k) (alookup ys k) := by
  induction xs with
  | nil => simp [alookup, orDefault]
  | cons p rest ih =>
    obtain ⟨k', v⟩ := p
    by_cases h : k' == k
    · simp [alookup, h, orDefault]
    · simp [alookup, h, ih]

theorem alookup_spread_map (d c : JMap) (k : String) :
    alookup (d.map (fun p => (p.1, (alookup c p.1).getD p.2))) k
      = (alookup d k).map (fun v => (alookup c k).getD v) := by
  induction d with
  | nil => simp [alookup]
  | cons p rest ih =>
    obtain ⟨k', v⟩ := p
    by_cases h : k' == k
    · have hk : k' = k := by
        simpa using h
      subst hk
      simp [alookup, h]
    · simp [alookup, h, ih]

theorem alookup_spread_filter (d c : JMap) (k : String) :
    alookup (c.filter (fun p => (alookup d p.1).isNone)) k
      = if (alookup d k).isNone then alookup c k else none := by
  induction c with
  | nil => simp [alookup]
  | cons p rest ih =>
    obtain ⟨k', v⟩ := p
    by_cases h : k' == k
    · have hk : k' = k := by
        simpa using h
      subst hk
      by_cases hd : (alookup d k').isNone
      · simp [alookup, List.filter, hd, h]
      · simp [alookup, List.filter, hd, h, ih]
    · by_cases hd : (alookup d k').isNone
      · simp [alookup, List.filter, hd, h, ih]
      · simp [alookup, List.filter, hd, h, ih]

/-- Lookup semantics of the JavaScript spread `{...d, ...c}`:
the override (`c`) wins on key collision, the default (`d`) fills in
otherwise. -/
theorem alookup_objSpread (d c : JMap) (k : String) :
    alookup (objSpread d c) k = orDefault (alookup c k) (alookup d k) := by
  unfold objSpread
  rw [alookup_append, alookup_spread_map, alookup_spread_filter]
  cases hd : alookup d k with
  | none =>
    cases hc : alookup c k with
    | none => simp [orDefault, hd]
    | some w => simp [orDefault, hd]
  | some v =>
    cases hc : alookup c k with
    | none => simp [orDefault, hd]
    | some w => simp [orDefault, hd]

/-- The host entry the cache holds for `customer`, traversing the same
optional path (`all`, then `hosts`, then the customer key) that
`getCustomerVars` guards on; `none` when any step is absent. -/
def lookupHostEntry (inv : Inventory) (customer : String) : Option HostEntry :=
  (inv.all.bind fun g => g.hosts).bind fun hs => alookup hs customer

/-- Example default vars `{a:1, b:2}`. -/
def exDefaults : JMap := [("a", .num 1), ("b", .num 2)]

/-- Example customer vars `{b:3, c:4}`. -/
def exCustomer : JMap := [("b", .num 3), ("c", .num 4)]

/-- Example hosts table with one customer `c1`. -/
def exHosts : List (String × HostEntry) := [("c1", ⟨some exCustomer⟩)]

/-- Example inventory cache. -/
def exInventory : Inventory := ⟨some ⟨some exDefaults, some exHosts⟩⟩

/-- C3: for every customer present in the cached inventory's `all.hosts`,
`getCustomerVars` returns the shallow one-level overlay of the default
vars (`all.vars`) by the customer's own vars: on each key, the
customer's value wins when present, else the default's value, else the
key is absent. -/
theorem getCustomerVars_overlay (inv : Inventory) (g : AllGroup)
    (hs : List (String × HostEntry)) (e : HostEntry) (customer : String)
    (hall : inv.all = some g) (hhosts : g.hosts = some hs)
    (hentry : alookup hs customer = some e) (k : String) :
    alookup (getCustomerVars inv customer) k
      = orDefault (alookup (e.vars.getD []) k) (alookup (g.vars.getD []) k) := by
  simp [getCustomerVars, hall, hhosts, hentry, alookup_objSpread]

/-- Witness for C3, on defaults `{a:1,b:2}` and customer vars `{b:3,c:4}`:
the overlay law at key `b`, and the full example result `{a:1,b:3,c:4}`. -/
theorem getCustomerVars_overlay_witness :
    (alookup (getCustomerVars exInventory "c1") "b"
        = orDefault (alookup exCustomer "b") (alookup exDefaults "b")) ∧
    getCustomerVars exInventory "c1"
      = [("a", JValue.num 1), ("b", JValue.num 3), ("c", JValue.num 4)] :=
  ⟨by
    have h := getCustomerVars_overlay exInventory ⟨some exDefaults, some exHosts⟩
      exHosts ⟨some exCustomer⟩ "c1" rfl rfl (by decide) "b"
    simpa using h,
   by decide⟩

/-- C6: when the customer id is not a key of the cache's `all.hosts`
(including when the cache lacks `all` or `all.hosts` entirely),
`getCustomerVars` returns the empty mapping — in particular the default
vars are not returned for an unknown customer id. -/
theorem getCustomerVars_unknown (inv : Inventory) (customer : String)
    (habsent : lookupHostEntry inv customer = none) :
    getCustomerVars inv customer = [] := by
  unfold lookupHostEntry at habsent
  cases hall : inv.all with
  | none => simp [getCustomerVars, hall]
  | some g =>
    cases hhosts : g.hosts with
    | none => simp [getCustomerVars, hall, hhosts]
    | some hs =>
      cases hentry : alookup hs customer with
      | none => simp [getCustomerVars, hall, hhosts, hentry]
      | some e =>
        rw [hall] at habsent
        simp [hhosts, hentry] at habsent

/-- Witness for C6: an inventory with nonempty default vars still yields
the empty mapping for an unknown customer id. -/
theorem getCustomerVars_unknown_witness :
    getCustomerVars exInventory "ghost" = [] :=
  getCustomerVars_unknown exInventory "ghost" (by decide)

/-- C9: `getCustomerVars` is total over degenerate cache shapes: a cache
missing `all`, an `all` missing `hosts`, a hosts table missing the
customer each yield the empty mapping; a host entry present but missing
`vars` yields exactly the default vars (`all.vars`, or the empty mapping
when those are absent too). -/
theorem getCustomerVars_degenerate (customer : String) (dv : Option JMap)
    (hs : List (String × HostEntry)) :
    getCustomerVars ⟨none⟩ customer = [] ∧
    getCustomerVars ⟨some ⟨dv, none⟩⟩ customer = [] ∧
    (alookup hs customer = none →
      getCustomerVars ⟨some ⟨dv, some hs⟩⟩ customer = []) ∧
    (alookup hs customer = some ⟨none⟩ →
      getCustomerVars ⟨some ⟨dv, some hs⟩⟩ customer = dv.getD []) := by
  refine ⟨rfl, rfl, ?_, ?_⟩
  · intro h
    simp [getCustomerVars, h]
  · intro h
    simp [getCustomerVars, h, objSpread, alookup]

/-- Witness for C9: a host entry without `vars` yields the defaults; a
missing customer yields the empty mapping. -/
theorem getCustomerVars_degenerate_witness :
    getCustomerVars ⟨some ⟨some exDefaults, some [("c1", ⟨none⟩)]⟩⟩ "c1" = exDefaults ∧
    getCustomerVars ⟨some ⟨some exDefaults, some [("c1", ⟨none⟩)]⟩⟩ "zz" = [] :=
  ⟨by
    have h := (getCustomerVars_degenerate "c1" (some exDefaults)
      [("c1", ⟨none⟩)]).2.2.2 (by decide)
    simpa using h,
   (getCustomerVars_degenerate "zz" (some exDefaults)
      [("c1", ⟨none⟩)]).2.2.1 (by decide)⟩

/-- `charsPrefix pre s` is JavaScript `s.startsWith(pre)` on char lists. -/
def charsPrefix : List Char → List Char → Bool
  | [], _ => true
  | _ :: _, [] => false
  | c :: cs, d :: ds => c == d && charsPrefix cs ds

/-- `charsInfix sub s` is JavaScript `s.includes(sub)` on char lists. -/
def charsInfix (sub : List Char) : List Char → Bool
  | [] => sub.isEmpty
  | c :: rest => charsPrefix sub (c :: rest) || charsInfix sub rest

/-- The chars of `s` before the first occurrence of `sep` (all of `s`
when `sep` does not occur): JavaScript `s.split(sep)[0]` for a
non-empty separator. -/
def takeUntil (sep : List Char) : List Char → List Char
  | [] => []
  | c :: rest => if charsPrefix sep (c :: rest) then [] else c :: takeUntil sep rest

/-- Remove the first occurrence of `sep` from `s` (JavaScript
`s.replace(sep, "")` for a non-empty literal separator). -/
def dropFirstOcc (sep : List Char) : List Char → List Char
  | [] => []
  | c :: rest =>
    if charsPrefix sep (c :: rest) then (c :: rest).drop sep.length
    else c :: dropFirstOcc sep rest

/-- JavaScript `s.startsWith(pre)`. -/
def jsStartsWith (s pre : String) : Bool := charsPrefix pre.toList s.toList

/-- JavaScript `s.includes(sub)`. -/
def jsIncludes (s sub : String) : Bool := charsInfix sub.toList s.toList

/-- JavaScript `s.split(sep)[0]` for a non-empty separator. -/
def jsSplitHead (s sep : String) : String := ⟨takeUntil sep.toList s.toList⟩

/-- JavaScript `s.replace(sep, "")` for a non-empty literal separator. -/
def jsReplaceFirst (s sep : String) : String := ⟨dropFirstOcc sep.toList s.toList⟩

/-- First branch condition of `categorizeVars`:
`key === "customer_domain" || key === "customer_url" ||
key.startsWith("customer_subdomain_")`. -/
def isDomainKey (k : String) : Bool :=
  k == "customer_domain" || k == "customer_url" || jsStartsWith k "customer_subdomain_"

/-- Second branch condition: `key.startsWith("customer_backup_")`. -/
def isBackupKey (k : String) : Bool := jsStartsWith k "customer_backup_"

/-- Third branch condition: `key.startsWith("customer_test_")`. -/
def isTestKey (k : String) : Bool := jsStartsWith k "customer_test_"

/-- Fourth branch condition: `key.includes("_mysql_")`. -/
def isMysqlKey (k : String) : Bool := jsIncludes k "_mysql_"

/-- Fifth branch condition: `key.startsWith("customer_") &&
!key.includes("subdomain") && key !== "customer_state"`. -/
def isModuleCandidateKey (k : String) : Bool :=
  jsStartsWith k "customer_" && !(jsIncludes k "subdomain") && !(k == "customer_state")

/-- `key.split("_mysql_")[0]`: the database sub-bucket name. -/
def mysqlService (k : String) : String := jsSplitHead k "_mysql_"

/-- `key.replace("customer_", "").split("_git")[0].split("_update")[0]`:
the candidate module name of the fifth branch. -/
def moduleCandidate (k : String) : String :=
  jsSplitHead (jsSplitHead (jsReplaceFirst k "customer_") "_git") "_update"

/-- The fixed module list `modulesList` of `ansible.js`. -/
def modulesList : List String := ["gateway", "portal", "portal_frontend", "lms", "file"]

/-- The five buckets returned by `categorizeVars`. -/
structure Buckets where
  modules : List (String × JMap)
  domain : JMap
  backup : JMap
  test : JMap
  database : List (String × JMap)
  deriving DecidableEq

/-- All five buckets empty (the initial accumulator). -/
def emptyBuckets : Buckets := ⟨[], [], [], [], []⟩

/-- `if (!bucket[service]) bucket[service] = {}; bucket[service][key] = value`
on a nested bucket: append to the existing sub-object, or append a new
sub-object keyed by `service`. -/
def nestedInsert (b : List (String × JMap)) (service k : String) (v : JValue) :
    List (String × JMap) :=
  match b with
  | [] => [(service, [(k, v)])]
  | (s, m) :: rest =>
    if s == service then (s, m ++ [(k, v)]) :: rest
    else (s, m) :: nestedInsert rest service k v

/-- The body of `categorizeVars`'s `forEach` for a single `[key, value]`
entry: the if/else-if chain in source precedence order. -/
def categorizeStep (acc : Buckets) (kv : String × JValue) : Buckets :=
  let k := kv.1
  let v := kv.2
  if isDomainKey k then { acc with domain := acc.domain ++ [(k, v)] }
  else if isBackupKey k then { acc with backup := acc.backup ++ [(k, v)] }
  else if isTestKey k then { acc with test := acc.test ++ [(k, v)] }
  else if isMysqlKey k then
    { acc with database := nestedInsert acc.database (mysqlService k) k v }
  else if isModuleCandidateKey k then
    if modulesList.contains (moduleCandidate k) then
      { acc with modules := nestedInsert acc.modules (moduleCandidate k) k v }
    else acc
  else acc

/-- `categorizeVars` from `ansible.js`: fold the per-entry step over the
input entries in order. -/
def categorizeVars (vars : JMap) : Buckets := vars.foldl categorizeStep emptyBuckets

/-- The category a key is assigned by the precedence chain of
`categorizeVars` (`dropped` when it matches no rule, or the module
candidate is not in the fixed list). -/
inductive KeyCat where
  | domain
  | backup
  | test
  | database
  | modules
  | dropped
  deriving DecidableEq

/-- Classification of a key by the source's precedence order:
domain, then backup, then test, then mysql, then module fallback. -/
def classifyKey (k : String) : KeyCat :=
  if isDomainKey k then .domain
  else if isBackupKey k then .backup
  else if isTestKey k then .test
  else if isMysqlKey k then .database
  else if isModuleCandidateKey k then
    if modulesList.contains (moduleCandidate k) then .modules else .dropped
  else .dropped

/-- Key membership in a flat bucket. -/
def flatMem (b : JMap) (k : String) : Bool := b.any (fun p => p.1 == k)

/-- Key membership in a nested (per-service) bucket. -/
def nestedMem (b : List (String × JMap)) (k : String) : Bool :=
  b.any (fun p => flatMem p.2 k)

/-- Key membership in the bucket selected by a category (`dropped`
selects no bucket). -/
def inBucket (b : Buckets) (c : KeyCat) (k : String) : Bool :=
  match c with
  | .domain => flatMem b.domain k
  | .backup => flatMem b.backup k
  | .test => flatMem b.test k
  | .database => nestedMem b.database k
  | .modules => nestedMem b.modules k
  | .dropped => false

theorem flatMem_append (b : JMap) (k k' : String) (v : JValue) :
    flatMem (b ++ [(k, v)]) k' = (flatMem b k' || k == k') := by
  simp [flatMem]

theorem nestedMem_insert (b : List (String × JMap)) (s k : String) (v : JValue)
    (k' : String) :
    nestedMem (nestedInsert b s k v) k' = (nestedMem b k' || k == k') := by
  induction b with
  | nil => simp [nestedInsert, nestedMem, flatMem]
  | cons p rest ih =>
    obtain ⟨s', m⟩ := p
    by_cases h : s' == s
    · simp [nestedInsert, h, nestedMem, flatMem, Bool.or_assoc, Bool.or_comm,
        Bool.or_left_comm]
    · simp only [nestedMem] at ih
      simp [nestedInsert, h, nestedMem, List.any_cons, ih, Bool.or_assoc]

theorem inBucket_empty (c : KeyCat) (k : String) :
    inBucket emptyBuckets c k = false := by
  cases c <;> rfl

/-- `categorizeStep` dispatches exactly on the category assigned by
`classifyKey`: it appends to the matching flat bucket, inserts into the
matching nested bucket, or leaves the accumulator unchanged. -/
theorem categorizeStep_eq (acc : Buckets) (kv : String × JValue) :
    categorizeStep acc kv = (match classifyKey kv.1 with
      | .domain => { acc with domain := acc.domain ++ [(kv.1, kv.2)] }
      | .backup => { acc with backup := acc.backup ++ [(kv.1, kv.2)] }
      | .test => { acc with test := acc.test ++ [(kv.1, kv.2)] }
      | .database =>
          { acc with database := nestedInsert acc.database (mysqlService kv.1) kv.1 kv.2 }
      | .modules =>
          { acc with modules := nestedInsert acc.modules (moduleCandidate kv.1) kv.1 kv.2 }
      | .dropped => acc) := by
  unfold categorizeStep classifyKey
  by_cases h1 : isDomainKey kv.1 = true
  · simp [h1]
  · by_cases h2 : isBackupKey kv.1 = true
    · simp [h1, h2]
    · by_cases h3 : isTestKey kv.1 = true
      · simp [h1, h2, h3]
      · by_cases h4 : isMysqlKey kv.1 = true
        · simp [h1, h2, h3, h4]
        · by_cases h5 : isModuleCandidateKey kv.1 = true
          · by_cases h6 : moduleCandidate kv.1 ∈ modulesList
            · simp [h1, h2, h3, h4, h5, h6]
            · simp [h1, h2, h3, h4, h5, h6]
          · simp [h1, h2, h3, h4, h5]

theorem inBucket_step (acc : Buckets) (kv : String × JValue) (c : KeyCat) (k : String)
    (h : inBucket (categorizeStep acc kv) c k = true) :
    inBucket acc c k = true ∨ (k = kv.1 ∧ classifyKey kv.1 = c) := by
  rw [categorizeStep_eq] at h
  cases hc : classifyKey kv.1 <;> rw [hc] at h <;> cases c <;>
    first
      | exact Or.inl h
      | (simp only [inBucket, flatMem_append, nestedMem_insert, Bool.or_eq_true] at h
         rcases h with h | h
         · exact Or.inl h
         · exact Or.inr ⟨(eq_of_beq h).symm, rfl⟩)

theorem inBucket_foldl (vars : JMap) (acc : Buckets) (c : KeyCat) (k : String)
    (hacc : inBucket acc c k = true → classifyKey k = c)
    (h : inBucket (vars.foldl categorizeStep acc) c k = true) :
    classifyKey k = c := by
  induction vars generalizing acc with
  | nil => exact hacc h
  | cons kv rest ih =>
    refine ih (categorizeStep acc kv) ?_ h
    intro hstep
    rcases inBucket_step acc kv c k hstep with h1 | ⟨hk, hcl⟩
    · exact hacc h1
    · rw [hk]
      exact hcl

/-- C2: categorization is exclusive and total — a key is in at most one
of the five buckets (first matching rule in the precedence order
domain, backup, test, mysql, module wins, as captured by `classifyKey`);
a key matching no rule is in no bucket; `customer_backup_enabled`
classifies as backup (not the generic module fallback);
`customer_state` matches no rule, and categorizing
`{"customer_state": "up"}` leaves all five buckets empty.  (The
embedding is a total function, so no input mapping can make it raise.) -/
theorem categorizeVars_exclusive (vars : JMap) (k : String) :
    (∀ c c', inBucket (categorizeVars vars) c k = true →
        inBucket (categorizeVars vars) c' k = true → c = c') ∧
    (classifyKey k = KeyCat.dropped →
        ∀ c, inBucket (categorizeVars vars) c k = false) ∧
    classifyKey "customer_backup_enabled" = KeyCat.backup ∧
    classifyKey "customer_state" = KeyCat.dropped ∧
    categorizeVars [("customer_state", JValue.str "up")] = emptyBuckets := by
  have hfold : ∀ c, inBucket (categorizeVars vars) c k = true → classifyKey k = c := by
    intro c hmem
    exact inBucket_foldl vars emptyBuckets c k
      (fun hx => absurd hx (by simp [inBucket_empty])) hmem
  refine ⟨?_, ?_, by decide, by decide, by decide⟩
  · intro c c' hc hc'
    rw [← hfold c hc, ← hfold c' hc']
  · intro hdrop c
    cases hmem : inBucket (categorizeVars vars) c k with
    | false => rfl
    | true =>
      have hc := hfold c hmem
      rw [hdrop] at hc
      rw [← hc] at hmem
      simp [inBucket] at hmem

/-- Witness for C2: the unmatched key `foo` is in no bucket (shown for
the domain bucket) when categorized alongside `customer_state`. -/
theorem categorizeVars_exclusive_witness :
    inBucket (categorizeVars [("customer_state", JValue.str "up"), ("foo", JValue.num 0)])
      KeyCat.domain "foo" = false :=
  (categorizeVars_exclusive [("customer_state", JValue.str "up"), ("foo", JValue.num 0)]
    "foo").2.1 (by decide) KeyCat.domain

/-- All key/value entries stored in a nested (per-service) bucket. -/
def nestedEntries : List (String × JMap) → JMap
  | [] => []
  | p :: rest => p.2 ++ nestedEntries rest

/-- All key/value entries stored in any of the five buckets. -/
def allBucketEntries (b : Buckets) : JMap :=
  b.domain ++ b.backup ++ b.test ++ nestedEntries b.database ++ nestedEntries b.modules

theorem mem_nestedEntries_insert (b : List (String × JMap)) (s k : String) (v : JValue)
    (x : String × JValue) (h : x ∈ nestedEntries (nestedInsert b s k v)) :
    x ∈ nestedEntries b ∨ x = (k, v) := by
  induction b with
  | nil =>
    simp [nestedInsert, nestedEntries] at h
    exact Or.inr h
  | cons p rest ih =>
    obtain ⟨s', m⟩ := p
    by_cases hs : (s' == s) = true
    · simp only [nestedInsert, hs, if_true] at h
      simp only [nestedEntries, List.mem_append, List.mem_singleton] at h ⊢
      tauto
    · simp only [nestedInsert, hs, Bool.false_eq_true, if_false] at h
      simp only [nestedEntries, List.mem_append] at h ⊢
      rcases h with h | h
      · tauto
      · rcases ih h with h' | h' <;> tauto

theorem mem_step (acc : Buckets) (kv : String × JValue) (x : String × JValue)
    (h : x ∈ allBucketEntries (categorizeStep acc kv)) :
    x ∈ allBucketEntries acc ∨ x = kv := by
  obtain ⟨k0, v0⟩ := kv
  rw [categorizeStep_eq] at h
  cases hc : classifyKey (k0, v0).1 <;> rw [hc] at h
  case domain =>
    simp only [allBucketEntries, List.mem_append, List.mem_singleton] at h ⊢
    tauto
  case backup =>
    simp only [allBucketEntries, List.mem_append, List.mem_singleton] at h ⊢
    tauto
  case test =>
    simp only [allBucketEntries, List.mem_append, List.mem_singleton] at h ⊢
    tauto
  case database =>
    have hins := fun hm =>
      mem_nestedEntries_insert acc.database (mysqlService k0) k0 v0 x hm
    simp only [allBucketEntries, List.mem_append] at h ⊢
    tauto
  case modules =>
    have hins := fun hm =>
      mem_nestedEntries_insert acc.modules (moduleCandidate k0) k0 v0 x hm
    simp only [allBucketEntries, List.mem_append] at h ⊢
    tauto
  case dropped =>
    exact Or.inl h

theorem mem_foldl (vars : JMap) (acc : Buckets) (x : String × JValue)
    (h : x ∈ allBucketEntries (vars.foldl categorizeStep acc)) :
    x ∈ allBucketEntries acc ∨ x ∈ vars := by
  induction vars generalizing acc with
  | nil => exact Or.inl h
  | cons kv rest ih =>
    rcases ih (categorizeStep acc kv) h with h1 | h2
    · rcases mem_step acc kv x h1 with ha | hx
      · exact Or.inl ha
      · right
        rw [hx]
        exact List.mem_cons_self kv rest
    · exact Or.inr (List.mem_cons_of_mem kv h2)

/-- C10: `categorizeVars` fabricates nothing — every key/value entry
appearing in any returned bucket is an entry of the input mapping, with
its value unchanged.  (The embedding is a pure function of the input
list, so the input mapping itself is trivially unmodified.) -/
theorem categorizeVars_preserves (vars : JMap) (x : String × JValue)
    (h : x ∈ allBucketEntries (categorizeVars vars)) : x ∈ vars := by
  rcases mem_foldl vars emptyBuckets x h with h1 | h2
  · simp [allBucketEntries, emptyBuckets, nestedEntries] at h1
  · exact h2

/-- Witness for C10: the domain entry stored for `customer_domain` is
exactly the input entry. -/
theorem categorizeVars_preserves_witness :
    ("customer_domain", JValue.str "x.com")
      ∈ ([("customer_domain", JValue.str "x.com"), ("customer_state", JValue.str "up")] : JMap) :=
  categorizeVars_preserves
    [("customer_domain", JValue.str "x.com"), ("customer_state", JValue.str "up")]
    ("customer_domain", JValue.str "x.com") (by decide)

/-- C4: for a key reaching the module fallback branch (starts with
`customer_`, no `subdomain` substring, not `customer_state`, and no
earlier rule matched), the candidate module name is obtained by
stripping the `customer_` prefix and truncating at the first `_git` or
`_update` (`moduleCandidate`); if the candidate is in the fixed module
list the pair is bucketed under `modules[candidate]`, otherwise the key
is silently dropped from all buckets; and the spec's two-key gateway
example buckets both pairs under `modules.gateway`. -/
theorem categorize_module_bucket (k : String) (v : JValue)
    (h1 : isDomainKey k = false) (h2 : isBackupKey k = false)
    (h3 : isTestKey k = false) (h4 : isMysqlKey k = false)
    (h5 : isModuleCandidateKey k = true) :
    (moduleCandidate k ∈ modulesList →
      categorizeVars [(k, v)]
        = { emptyBuckets with modules := [(moduleCandidate k, [(k, v)])] }) ∧
    (moduleCandidate k ∉ modulesList →
      categorizeVars [(k, v)] = emptyBuckets) ∧
    (categorizeVars [("customer_gateway_update", JValue.bool true),
        ("customer_gateway_git_branches", JValue.str "main")]).modules
      = [("gateway", [("customer_gateway_update", JValue.bool true),
          ("customer_gateway_git_branches", JValue.str "main")])] := by
  refine ⟨?_, ?_, by decide⟩ <;> intro hm <;>
    simp [categorizeVars, categorizeStep, emptyBuckets, h1, h2, h3, h4, h5, hm,
      nestedInsert]

/-- Witness for C4: `customer_gateway_update` is bucketed under
`modules.gateway`; the unknown module key `customer_foo_update` is
dropped from all buckets. -/
theorem categorize_module_bucket_witness :
    categorizeVars [("customer_gateway_update", JValue.bool true)]
        = { emptyBuckets with
            modules := [("gateway", [("customer_gateway_update", JValue.bool true)])] } ∧
    categorizeVars [("customer_foo_update", JValue.bool true)] = emptyBuckets :=
  ⟨((categorize_module_bucket "customer_gateway_update" (JValue.bool true)
      (by decide) (by decide) (by decide) (by decide) (by decide)).1
        (by decide)).trans (by decide),
   (categorize_module_bucket "customer_foo_update" (JValue.bool true)
      (by decide) (by decide) (by decide) (by decide) (by decide)).2.1 (by decide)⟩

/-- C5: for a key containing `_mysql_` that matched none of the domain,
backup, or test rules, the pair is bucketed under `database[m]` where
`m` is the substring before the first `_mysql_` occurrence. -/
theorem categorize_database_bucket (k : String) (v : JValue)
    (h1 : isDomainKey k = false) (h2 : isBackupKey k = false)
    (h3 : isTestKey k = false) (h4 : isMysqlKey k = true) :
    categorizeVars [(k, v)]
      = { emptyBuckets with database := [(mysqlService k, [(k, v)])] } := by
  simp [categorizeVars, categorizeStep, emptyBuckets, h1, h2, h3, h4, nestedInsert]

/-- Witness for C5: `lms_mysql_db_name` lands in `database.lms`. -/
theorem categorize_database_bucket_witness :
    categorizeVars [("lms_mysql_db_name", JValue.str "lms_db")]
      = { emptyBuckets with
          database := [("lms", [("lms_mysql_db_name", JValue.str "lms_db")])] } :=
  (categorize_database_bucket "lms_mysql_db_name" (JValue.str "lms_db")
      (by decide) (by decide) (by decide) (by decide)).trans (by decide)

/-- JavaScript `s.split(" ")` on char lists: split at every single space
character, keeping empty segments. -/
def splitOnSpace : List Char → List (List Char)
  | [] => [[]]
  | c :: rest =>
    if c == ' ' then [] :: splitOnSpace rest
    else
      match splitOnSpace rest with
      | [] => [[c]]
      | p :: ps => (c :: p) :: ps

/-- `const parts = value.split(" ")` in `renderCron`. -/
def renderCronParts (value : String) : List String :=
  (splitOnSpace value.toList).map (fun l => ⟨l⟩)

/-- `parts[i] || "*"`: out-of-range or empty parts render as `*`. -/
def partOrStar (parts : List String) (i : Nat) : String :=
  match parts.get? i with
  | none => "*"
  | some s => if s == "" then "*" else s

/-- The cron sub-inputs `renderCron` actually renders: minute
(`parts[0]`), hour (`parts[1]`), day of month (`parts[2]`) and weekday
(`parts[4]`).  No month input is rendered. -/
structure CronInputs where
  minute : String
  hour : String
  day : String
  weekday : String
  deriving DecidableEq

/-- `renderCron` from `ansible.js`, reduced to the values of the
sub-inputs it renders. -/
def renderCron (value : String) : CronInputs :=
  let parts := renderCronParts value
  { minute := partOrStar parts 0
    hour := partOrStar parts 1
    day := partOrStar parts 2
    weekday := partOrStar parts 4 }

/-- `input.value || "*"` in `collectFormData`. -/
def orStar (s : String) : String := if s == "" then "*" else s

/-- The cron-string assembly of `collectFormData`: start from
`["*","*","*","*","*"]`, store each present cron input at its index
from `{minute: 0, hour: 1, day: 2, month: 3, weekday: 4}` (only the
four rendered inputs exist, so index 3 is never written), and join with
single spaces. -/
def collectCron (inputs : CronInputs) : String :=
  let arr : List String := ["*", "*", "*", "*", "*"]
  let arr := arr.set 0 (orStar inputs.minute)
  let arr := arr.set 1 (orStar inputs.hour)
  let arr := arr.set 2 (orStar inputs.day)
  let arr := arr.set 4 (orStar inputs.weekday)
  String.intercalate " " arr

/-- C1 (refuted by the code): re-encoding a decoded 5-token cron string
does not reproduce the original — `renderCron` renders no month input
(it uses `parts[0]`, `parts[1]`, `parts[2]`, `parts[4]` only), so
`collectFormData` leaves index 3 at its `"*"` default and the month
field is lost; minute, hour, day-of-month and weekday are preserved. -/
theorem cron_roundtrip_month_lost :
    collectCron (renderCron "0 0 1 6 0") = "0 0 1 * 0" ∧
    collectCron (renderCron "*/5 2 3 11 1") = "*/5 2 3 * 1" ∧
    ("0 0 1 * 0" : String) ≠ "0 0 1 6 0" := by
  decide

/-- A settled JavaScript promise: resolved with a value or rejected with
an error message. -/
inductive PromiseResult (α : Type) where
  | resolved (value : α)
  | rejected (message : String)
  deriving DecidableEq

/-- Parsed JSON body of a `/api/run` response (`status`, and the
optional `message` and `runId` fields). -/
structure RunResponse where
  status : String
  message : Option String
  runId : Option String
  deriving DecidableEq

/-- Outcome of `fetch('/api/run', ...).then(r => r.json())`: the chain
rejected (transport error or JSON parse failure), or produced a parsed
body. -/
inductive RunFetchOutcome where
  | failed (message : String)
  | json (data : RunResponse)
  deriving DecidableEq

/-- JavaScript `m || dflt` for an optional string field: an absent or
empty (falsy) value falls back to the default. -/
def jsOrDefault (m : Option String) (dflt : String) : String :=
  match m with
  | none => dflt
  | some s => if s == "" then dflt else s

/-- `runPlaybook` from `ansible.js` as a function of the request data
and the fetch outcome (the request payload — customer, extra vars,
optional tags — does not influence how the response settles): resolve
the acknowledgement when `data.status` is `started` or `success`,
otherwise reject with `data.message || <default error text>` (the
default also covers an empty message, which is falsy in JavaScript); a
failed fetch/parse rejects with its error. -/
def runPlaybook (customer : String) (extraVars : JMap) (tags : Option String)
    (outcome : RunFetchOutcome) : PromiseResult RunResponse :=
  match customer, extraVars, tags, outcome with
  | _, _, _, .failed e => .rejected e
  | _, _, _, .json data =>
    if data.status == "started" || data.status == "success" then .resolved data
    else .rejected (jsOrDefault data.message "خطا در اجرای پلی‌بوک")

/-- C7: for every customer, extra vars and optional tags, `runPlaybook`
resolves exactly when the parsed response's status is `started` or
`success`, returning that acknowledgement object unchanged; any other
status rejects with `data.message || <default text>` — the response's
message when present and non-empty, the default text when the message
is absent (or empty, hence falsy); transport/parse failures reject. -/
theorem runPlaybook_ack (customer : String) (extraVars : JMap) (tags : Option String)
    (outcome : RunFetchOutcome) :
    (∀ d : RunResponse, outcome = .json d →
      (d.status = "started" ∨ d.status = "success") →
      runPlaybook customer extraVars tags outcome = .resolved d) ∧
    (∀ d : RunResponse, outcome = .json d →
      d.status ≠ "started" → d.status ≠ "success" →
      runPlaybook customer extraVars tags outcome
        = .rejected (jsOrDefault d.message "خطا در اجرای پلی‌بوک")) ∧
    (∀ e, outcome = .failed e →
      runPlaybook customer extraVars tags outcome = .rejected e) ∧
    (∀ d : RunResponse, runPlaybook customer extraVars tags outcome = .resolved d →
      outcome = .json d ∧ (d.status = "started" ∨ d.status = "success")) := by
  refine ⟨?_, ?_, ?_, ?_⟩
  · rintro d rfl hst
    rcases hst with h | h <;> simp [runPlaybook, h]
  · rintro d rfl h1 h2
    have hb1 : (d.status == "started") = false := beq_eq_false_iff_ne.mpr h1
    have hb2 : (d.status == "success") = false := beq_eq_false_iff_ne.mpr h2
    simp [runPlaybook, hb1, hb2]
  · rintro e rfl
    rfl
  · intro d h
    cases outcome with
    | failed e => simp [runPlaybook] at h
    | json d' =>
      by_cases hc : (d'.status == "started" || d'.status == "success") = true
      · simp only [runPlaybook, hc, if_true] at h
        cases h
        constructor
        · rfl
        · simpa using hc
      · simp only [runPlaybook, Bool.not_eq_true] at h
        rw [Bool.not_eq_true] at hc
        simp [hc] at h

/-- Witness for C7: a `started` body resolves with the acknowledgement;
an `error` body rejects with its message; an `error` body whose message
is the empty string (falsy) rejects with the default text. -/
theorem runPlaybook_ack_witness :
    runPlaybook "cust1" [] none (.json ⟨"started", none, some "42"⟩)
      = .resolved ⟨"started", none, some "42"⟩ ∧
    runPlaybook "cust1" [] none (.json ⟨"error", some "boom", none⟩)
      = .rejected "boom" ∧
    runPlaybook "cust1" [] none (.json ⟨"error", some "", none⟩)
      = .rejected "خطا در اجرای پلی‌بوک" :=
  ⟨(runPlaybook_ack "cust1" [] none (.json ⟨"started", none, some "42"⟩)).1
      ⟨"started", none, some "42"⟩ rfl (Or.inl rfl),
   by
    have h := (runPlaybook_ack "cust1" [] none
      (.json ⟨"error", some "boom", none⟩)).2.1
      ⟨"error", some "boom", none⟩ rfl (by decide) (by decide)
    simpa [jsOrDefault] using h,
   by
    have h := (runPlaybook_ack "cust1" [] none
      (.json ⟨"error", some "", none⟩)).2.1
      ⟨"error", some "", none⟩ rfl (by decide) (by decide)
    simpa [jsOrDefault] using h⟩

/-- One cron log entry as rendered by the logs panel. -/
structure LogEntry where
  timestamp : String
  message : String
  type : String
  deriving DecidableEq

/-- Parsed JSON body of `/api/cron/logs` (the `simulated` flag is absent
— hence false — on genuine server data). -/
structure CronLogsData where
  status : String
  logs : List LogEntry
  simulated : Bool
  deriving DecidableEq

/-- Result of `response.json()` once the ok/content-type checks passed. -/
inductive BodyResult where
  | parseError (message : String)
  | parsed (data : CronLogsData)
  deriving DecidableEq

/-- Outcome of `fetch('/api/cron/logs')`: transport rejection, or a
response with its `ok` flag, `content-type` header, and body. -/
inductive CronFetchOutcome where
  | transportError (message : String)
  | response (ok : Bool) (contentType : Option String) (body : BodyResult)
  deriving DecidableEq

/-- The content-type guard of `getCronLogs`:
`!contentType || !contentType.includes("application/json")` throws. -/
def contentTypeOk (ct : Option String) : Bool :=
  match ct with
  | none => false
  | some s => !(s == "") && jsIncludes s "application/json"

/-- The five fixed sample entries of `getSampleLogs`; `ts` abstracts
`new Date(Date.now() - offset).toISOString()` as a function of the
millisecond offset. -/
def sampleLogEntries (ts : Nat → String) : List LogEntry :=
  [⟨ts 0, "Cron daemon started successfully", "success"⟩,
   ⟨ts 3600000, "(root) CMD (system maintenance)", "info"⟩,
   ⟨ts 7200000, "Hourly cron jobs completed", "success"⟩,
   ⟨ts 10800000, "Disk space check: OK", "info"⟩,
   ⟨ts 14400000, "Log rotation in progress", "warning"⟩]

/-- `getSampleLogs` from `cron.js`: sample entries truncated by
`slice(0, limit)`, flagged `simulated: true` under status `success`. -/
def getSampleLogs (ts : Nat → String) (limit : Nat) : CronLogsData :=
  { status := "success"
    logs := (sampleLogEntries ts).take limit
    simulated := true }

/-- `getCronLogs` from `cron.js` as a function of the fetch outcome:
every failure path (non-ok status, bad content type, parse failure,
non-`success` body status) resolves with the sample logs; only a parsed
`success` body resolves with the server data. -/
def getCronLogs (ts : Nat → String) (limit : Nat) (outcome : CronFetchOutcome) :
    PromiseResult CronLogsData :=
  match outcome with
  | .transportError _ => .resolved (getSampleLogs ts limit)
  | .response ok ct body =>
    if !ok then .resolved (getSampleLogs ts limit)
    else if !(contentTypeOk ct) then .resolved (getSampleLogs ts limit)
    else
      match body with
      | .parseError _ => .resolved (getSampleLogs ts limit)
      | .parsed data =>
        if data.status == "success" then .resolved data
        else .resolved (getSampleLogs ts limit)

/-- The failure modes enumerated by C8: transport error, non-2xx
(`!ok`), non-JSON content type, parse failure, or a body whose status
is not `success`. -/
def cronFetchFailed (outcome : CronFetchOutcome) : Bool :=
  match outcome with
  | .transportError _ => true
  | .response ok ct body =>
    !ok || !(contentTypeOk ct) ||
      (match body with
       | .parseError _ => true
       | .parsed data => !(data.status == "success"))

/-- C8: on every failure mode of the cron-log fetch, `getCronLogs` does
not reject — it resolves with the sample-log placeholder, whose status
is `success`, whose `simulated` flag is true, and which contains at
most `limit` entries. -/
theorem getCronLogs_fallback (ts : Nat → String) (limit : Nat)
    (outcome : CronFetchOutcome) (hfail : cronFetchFailed outcome = true) :
    getCronLogs ts limit outcome = .resolved (getSampleLogs ts limit) ∧
    (getSampleLogs ts limit).status = "success" ∧
    (getSampleLogs ts limit).simulated = true ∧
    (getSampleLogs ts limit).logs.length ≤ limit := by
  refine ⟨?_, rfl, rfl, ?_⟩
  · cases outcome with
    | transportError e => rfl
    | response ok ct body =>
      cases ok with
      | false => rfl
      | true =>
        cases hct : contentTypeOk ct with
        | false => simp [getCronLogs, hct]
        | true =>
          cases body with
          | parseError e => simp [getCronLogs, hct]
          | parsed data =>
            simp only [cronFetchFailed, hct, Bool.not_true, Bool.false_or,
              Bool.not_eq_true'] at hfail
            simp [getCronLogs, hct, hfail]
  · simp only [getSampleLogs]
    simp [List.length_take]

/-- Witness for C8: a well-formed JSON response whose status is `error`
resolves with the sample logs. -/
theorem getCronLogs_fallback_witness :
    getCronLogs (fun _ => "2026-10-12T00:00:00.000Z") 50
        (.response true (some "application/json") (.parsed ⟨"error", [], false⟩))
      = .resolved (getSampleLogs (fun _ => "2026-10-12T00:00:00.000Z") 50) :=
  (getCronLogs_fallback (fun _ => "2026-10-12T00:00:00.000Z") 50
      (.response true (some "application/json") (.parsed ⟨"error", [], false⟩))
      (by decide)).1

end Leo
